import Mathlib

/-!
Shallow embedding of the Agent Task Protocol Client
(`src/frontend/src/lib/utils/agentMessageHandler.ts`,
`src/frontend/src/lib/utils/paymentHandler.ts`,
`src/frontend/src/lib/stores/chat.ts`) together with theorems about the
claims of the specification.

Modelling conventions:
* JS strings are Lean `String`s; a missing string field and the empty
  string are identified wherever the code only tests truthiness.
* Optional object fields are `Option`s; JS truthiness of an optional
  string (`s && ...`) is `truthy`.
* The nondeterministic `crypto.randomUUID()` is passed in as an explicit
  `fresh` argument.
* The async generator `sendAgentMessage` is modelled as a pure function
  from an environment (the responses the network would deliver, and the
  abort flag per poll iteration) to the finite list of yielded updates
  plus the final outcome (normal return or raised error).
* The module-level mutable `paymentToken` is threaded explicitly as an
  `Option String` state.
-/

namespace Bindu

/-- One message part `{ kind, text }`; a missing `text` is modelled as `""`
(both are falsy wherever the code tests `part.text`). -/
structure MsgPart where
  kind : String
  text : String
deriving DecidableEq

/-- One task artifact: `{ kind, parts?, text? }` as declared in
`agentMessageHandler.ts` (`AgentTask.artifacts`). -/
structure Artifact where
  kind : String
  parts : Option (List MsgPart)
  text : Option String
deriving DecidableEq

/-- One history entry `{ kind: 'message', role, parts }`; `parts` optional
because the code guards `if (msg.parts)` / `msg.parts || []`. -/
structure HistoryMsg where
  role : String
  parts : Option (List MsgPart)
deriving DecidableEq

/-- The task snapshot returned by the agent (`AgentTask` in
`agentMessageHandler.ts`).  `status.timestamp` is modelled post-`Date.parse`
as milliseconds; `metadata?.error` is modelled as an optional string. -/
structure AgentTask where
  id : String
  context_id : String
  state : String
  timestamp : Nat
  history : List HistoryMsg
  artifacts : List Artifact
  metadataError : Option String
deriving DecidableEq

/-- JS truthiness of an optional string: present and nonempty. -/
def truthy : Option String → Bool
  | some s => !(s == "")
  | none => false

/-- JS `x || d` for an optional string whose empty value is falsy. -/
def orDefault (o : Option String) (d : String) : String :=
  match o with
  | some s => if s = "" then d else s
  | none => d

/-! ### Text Extractor (`extractTextFromTask`) -/

/-- The inner guard `part.kind === 'text' && part.text` of
`extractTextFromTask`: the part's text when it is a nonempty text part. -/
def partText? (p : MsgPart) : Option String :=
  if p.kind = "text" ∧ p.text ≠ "" then some p.text else none

/-- The texts collected from `task.artifacts` by the first loop of
`extractTextFromTask`: for an artifact with a `parts` array, its nonempty
text parts; otherwise its truthy top-level `text` field, if any. -/
def artifactTexts (arts : List Artifact) : List String :=
  arts.flatMap fun a =>
    match a.parts with
    | some ps => ps.filterMap partText?
    | none =>
      match a.text with
      | some t => if t = "" then [] else [t]
      | none => []

/-- The inner scan of the history fallback: for an assistant/agent message,
the first nonempty text part, if any. -/
def msgFirstText? (m : HistoryMsg) : Option String :=
  if m.role = "assistant" ∨ m.role = "agent" then
    match m.parts with
    | some ps => ps.findSome? partText?
    | none => none
  else none

/-- The history fallback of `extractTextFromTask`: scan from the most
recent entry backward, return the first hit, else `""`. -/
def extractFromHistory (hist : List HistoryMsg) : String :=
  match hist.reverse.findSome? msgFirstText? with
  | some t => t
  | none => ""

/-- `extractTextFromTask` (agentMessageHandler.ts lines 113-148). -/
def extractTextFromTask (task : AgentTask) : String :=
  if task.artifacts.length > 0 then
    let textParts := artifactTexts task.artifacts
    if textParts.length > 0 then String.intercalate "\n" textParts
    else extractFromHistory task.history
  else extractFromHistory task.history

/-- The Text Extractor's artifact pass as the specification words it
(§4.2): every `text`-kind part across every artifact, in order.  In the
spec's data model an artifact is a sequence of parts, so only `parts` is
consulted. -/
def specArtifactTexts (arts : List Artifact) : List String :=
  (arts.flatMap fun a => a.parts.getD []).filterMap fun p =>
    if p.kind = "text" then some p.text else none

/-- The Text Extractor's history pass on one message as the specification
words it: an `assistant`/`agent`-role message containing a `text` part
yields that message's first text part verbatim. -/
def specMsgText? (m : HistoryMsg) : Option String :=
  if m.role = "assistant" ∨ m.role = "agent" then
    ((m.parts.getD []).find? fun p => p.kind = "text").map MsgPart.text
  else none

/-- The Text Extractor as the specification words it (§4.2): newline-join
of all artifact text parts when any exist, else the most recent
`assistant`/`agent` history message with a text part, else `""`. -/
def specExtractText (task : AgentTask) : String :=
  if specArtifactTexts task.artifacts ≠ [] then
    String.intercalate "\n" (specArtifactTexts task.artifacts)
  else
    match task.history.reverse.findSome? specMsgText? with
    | some t => t
    | none => ""

/-- No `text`-kind part of `ps` has empty text (the well-formedness the
spec's data model implies for text parts). -/
def TextPartsNonempty (ps : List MsgPart) : Prop :=
  ∀ p ∈ ps, p.kind = "text" → p.text ≠ ""

instance (ps : List MsgPart) : Decidable (TextPartsNonempty ps) :=
  inferInstanceAs (Decidable (∀ p ∈ ps, p.kind = "text" → p.text ≠ ""))

/-! ### Task Identity Resolver (`sendAgentMessage` lines 187-209) -/

/-- The task-identity logic of `sendAgentMessage`: `fresh` stands for the
value `generateId()` would produce.  Returns `(taskId, referenceTaskIds)`. -/
def resolveTaskIdentity (fresh : String) (replyToTaskId currentTaskId taskState : Option String) :
    String × List String :=
  if truthy replyToTaskId then
    (fresh, [replyToTaskId.getD ""])
  else
    let isNonTerminalState :=
      truthy taskState &&
        (taskState == some "input-required" || taskState == some "auth-required")
    if isNonTerminalState && truthy currentTaskId then
      (currentTaskId.getD "", [])
    else
      (fresh,
        match currentTaskId with
        | some c => if c = "" then [] else [c]
        | none => [])

/-- The Task Identity Resolver as the specification words it (§4.1): four
rules on *presence* of the inputs, in priority order. -/
def specResolveTaskIdentity (fresh : String) (replyToTaskId currentTaskId taskState : Option String) :
    String × List String :=
  match replyToTaskId with
  | some r => (fresh, [r])
  | none =>
    match currentTaskId with
    | some c =>
      if taskState = some "input-required" ∨ taskState = some "auth-required" then
        (c, [])
      else
        (fresh, [c])
    | none => (fresh, [])

/-! ### Context-id derivation (`sendAgentMessage` lines 211-214) -/

/-- JS `String.prototype.padEnd(targetLength, pad)` for a one-character pad. -/
def padEnd (s : String) (targetLength : Nat) (pad : Char) : String :=
  s ++ String.mk (List.replicate (targetLength - s.length) pad)

/-- The derivation applied to a present, truthy `contextId`:
`contextId.length === 24 ? contextId.padEnd(32, '0') : contextId`. -/
def deriveContextId (c : String) : String :=
  if c.length = 24 then padEnd c 32 '0' else c

/-- The whole `newContextId` computation; `freshCtx` stands for the
`generateId()` result taken when `contextId` is absent or empty. -/
def newContextId (contextId : Option String) (freshCtx : String) : String :=
  if truthy contextId then deriveContextId (contextId.getD "") else freshCtx

/-! ### Payment Challenge Handler (`paymentHandler.ts`) -/

/-- One `GET /api/payment-status/{session_id}` response body. -/
structure PaymentStatus where
  status : String
  payment_token : Option String
deriving DecidableEq

/-- Outcome of one poll iteration of `handlePaymentRequired`. -/
inductive PayStep where
  | approved
  | failed
  | keepPolling
deriving DecidableEq

/-- The body of one poll iteration of `handlePaymentRequired`
(paymentHandler.ts lines 62-79), acting on the module-level
`paymentToken` state: on `completed` with a truthy token the token is
assigned and `true` returned; on `failed`, `false`; otherwise keep polling. -/
def paymentPollStep (tok : Option String) (d : PaymentStatus) : Option String × PayStep :=
  if d.status = "completed" ∧ truthy d.payment_token then
    (d.payment_token, PayStep.approved)
  else if d.status = "failed" then
    (tok, PayStep.failed)
  else
    (tok, PayStep.keepPolling)

/-- A whitespace character as JS `String.prototype.trim` removes it
(restricted to the ASCII whitespace actually occurring in tokens). -/
def isJsWhite (c : Char) : Bool :=
  c = ' ' || c = '\t' || c = '\n' || c = '\r'

/-- Executable model of JS `String.prototype.trim`: drop leading and
trailing whitespace. -/
def jsTrim (s : String) : String :=
  String.mk (((s.toList.dropWhile isJsWhite).reverse.dropWhile isJsWhite).reverse)

/-- The regex `^[\x00-\x7F]*$`: every code point is at most `0x7F`. -/
def asciiOnly (s : String) : Bool :=
  s.toList.all fun c => c.toNat ≤ 127

/-- `getPaymentHeaders` (paymentHandler.ts lines 96-111), returning the new
`paymentToken` state and the header list. -/
def getPaymentHeaders (tok : Option String) : Option String × List (String × String) :=
  match tok with
  | none => (none, [])
  | some t =>
    if t = "" then (some t, [])
    else
      let cleanToken := jsTrim t
      if asciiOnly cleanToken then (some t, [("X-PAYMENT", cleanToken)])
      else (none, [])

/-- `clearPaymentToken` (paymentHandler.ts lines 116-118). -/
def clearPaymentToken (_tok : Option String) : Option String := none

/-- `hasPaymentToken` (paymentHandler.ts lines 123-125). -/
def hasPaymentToken (tok : Option String) : Bool :=
  match tok with
  | some t => t.length > 0
  | none => false

/-! ### Send/Poll Engine (`sendAgentMessage`)

The async generator is modelled as a trace function: the environment fixes
what every network interaction would return, and the function computes the
full list of `MessageUpdate`s yielded together with the outcome (normal
return or error raised to the caller). -/

/-- The `MessageUpdateStatus` values used by `sendAgentMessage`. -/
inductive UpdStatus where
  | started
  | finished
  | error
deriving DecidableEq

/-- The `MessageUpdate` variants yielded by `sendAgentMessage`. -/
inductive MessageUpdate where
  | status (s : UpdStatus) (message : Option String)
  | taskMetadata (taskId : String) (contextId : String) (taskStatus : String)
      (referenceTaskIds : Option (List String))
  | finalAnswer (text : String) (interrupted : Bool)
deriving DecidableEq

/-- What one `tasks/get` interaction of the poll loop does. -/
inductive PollResult where
  | fetchReject (msg : String)
  | httpNotOk
  | jsonReject (msg : String)
  | rpcError (msg : Option String)
  | ok (t : AgentTask)

/-- What the send phase (initial `message/send`, including the 402 payment
sub-flow and the response parsing, lines 242-317) resolves to: either an
error message thrown inside the `try`, or the returned task. -/
inductive SendPhase where
  | reject (msg : String)
  | httpNotOk (code : Nat) (body : String)
  | paymentUnresolved
  | retryReject (msg : String)
  | retryNotOk (code : Nat) (body : String)
  | parseFail
  | rpcError (msg : Option String)
  | noResult
  | ok (t : AgentTask)

/-- The environment of one `sendAgentMessage` run: the send-phase
resolution, the result of the `tasks/get` fetch of each poll attempt, and
whether `abortSignal.aborted` holds at the top of each poll attempt. -/
structure SendEnv where
  send : SendPhase
  polls : Nat → PollResult
  aborted : Nat → Bool

/-- How the poll loop ends: normal generator return, or a thrown error. -/
inductive PollEnd where
  | finished
  | thrown (msg : String)
deriving DecidableEq

/-- How a whole `sendAgentMessage` run ends for the caller. -/
inductive RunOutcome where
  | completed
  | raised (msg : String)
deriving DecidableEq

/-- The error message thrown by the send phase, or the received task
(agentMessageHandler.ts lines 242-317). -/
def sendPhaseRun : SendPhase → Except String AgentTask
  | SendPhase.reject m => Except.error m
  | SendPhase.httpNotOk c b =>
      Except.error ("Agent request failed: " ++ toString c ++ " - " ++ b)
  | SendPhase.paymentUnresolved => Except.error "Payment required but not completed"
  | SendPhase.retryReject m => Except.error m
  | SendPhase.retryNotOk c b =>
      Except.error ("Agent request failed after payment: " ++ toString c ++ " - " ++ b)
  | SendPhase.parseFail => Except.error "Failed to parse response"
  | SendPhase.rpcError m => Except.error (orDefault m "Agent error")
  | SendPhase.noResult => Except.error "Invalid response: missing result"
  | SendPhase.ok t => Except.ok t

/-- The poll loop of `sendAgentMessage` (lines 335-414): `fuel` is the
remaining attempt budget (300 at the top call), `attempt` the current
attempt index, `tok` the module-level payment token.  Returns the updates
yielded by the loop, the payment token afterwards, and how it ended. -/
def pollLoop (polls : Nat → PollResult) (aborted : Nat → Bool)
    (tid ctx : String) (refs : Option (List String)) :
    Nat → Nat → Option String → List MessageUpdate × Option String × PollEnd
  | 0, _, tok => ([], tok, PollEnd.thrown "Task polling timeout")
  | fuel + 1, attempt, tok =>
    if aborted attempt then ([], tok, PollEnd.thrown "Request aborted")
    else
      match polls attempt with
      | PollResult.fetchReject m => ([], tok, PollEnd.thrown m)
      | PollResult.httpNotOk => pollLoop polls aborted tid ctx refs fuel (attempt + 1) tok
      | PollResult.jsonReject m => ([], tok, PollEnd.thrown m)
      | PollResult.rpcError m => ([], tok, PollEnd.thrown (orDefault m "Task status error"))
      | PollResult.ok t =>
        let md := MessageUpdate.taskMetadata tid ctx t.state refs
        if t.state = "completed" ∨ t.state = "input-required" then
          ([md, MessageUpdate.finalAnswer (extractTextFromTask t) false,
            MessageUpdate.status UpdStatus.finished none],
           if t.state = "completed" then none else tok,
           PollEnd.finished)
        else if t.state = "failed" then
          ([md], none,
           PollEnd.thrown ("Task failed: " ++ orDefault t.metadataError "Unknown error"))
        else if t.state = "canceled" then
          ([md], none, PollEnd.thrown "Task was canceled")
        else
          let rest := pollLoop polls aborted tid ctx refs fuel (attempt + 1) tok
          (md :: rest.1, rest.2.1, rest.2.2)

/-- The full trace of one `sendAgentMessage` invocation: the updates
yielded, in order, and the outcome.  `fresh` and `freshCtx` stand for the
`generateId()` results consumed for a new task id and a new context id;
`tok0` is the payment token held when the poll loop starts. -/
def sendAgentMessage (env : SendEnv) (fresh : String) (contextId : Option String)
    (freshCtx : String) (currentTaskId taskState replyToTaskId : Option String)
    (tok0 : Option String) : List MessageUpdate × RunOutcome :=
  let idRes := resolveTaskIdentity fresh replyToTaskId currentTaskId taskState
  let ctx := newContextId contextId freshCtx
  let refs : Option (List String) := if idRes.2.isEmpty then none else some idRes.2
  let started := MessageUpdate.status UpdStatus.started none
  match sendPhaseRun env.send with
  | Except.error m =>
      ([started, MessageUpdate.status UpdStatus.error (some m)], RunOutcome.raised m)
  | Except.ok task =>
      let md0 := MessageUpdate.taskMetadata task.id ctx task.state refs
      let loop := pollLoop env.polls env.aborted task.id ctx refs 300 0 tok0
      match loop.2.2 with
      | PollEnd.finished => (started :: md0 :: loop.1, RunOutcome.completed)
      | PollEnd.thrown m =>
          (started :: md0 :: (loop.1 ++ [MessageUpdate.status UpdStatus.error (some m)]),
           RunOutcome.raised m)

/-- Whether an update is a `FinalAnswer`. -/
def isFinalAnswer : MessageUpdate → Bool
  | MessageUpdate.finalAnswer _ _ => true
  | _ => false

/-! ### Context Aggregator preview (`chat.ts`, `loadContexts` lines 96-122) -/

/-- The preview scan of `loadContexts`: the first `user`-role history entry
with at least one `text`-kind part yields that entry's first text part,
truncated to 50 characters (`textParts[0].substring(0, 50)`). -/
def firstUserMessageText? (hist : List HistoryMsg) : Option String :=
  hist.findSome? fun m =>
    if m.role = "user" then
      match ((m.parts.getD []).filter fun p => p.kind = "text").map MsgPart.text with
      | [] => none
      | t :: _ => some (t.take 50)
    else none

/-- The preview title `ctx.firstMessage` computed by `loadContexts` for one
context: the task fetched for the *first* id of `ctx.taskIds` is scanned;
a failed fetch (`getTask` throwing, modelled as `none`) or a context with
no tasks leaves the placeholder `"Loading..."`. -/
def loadContextPreview (getTask : String → Option AgentTask) (taskIds : List String) : String :=
  match taskIds with
  | [] => "Loading..."
  | tid :: _ =>
    match getTask tid with
    | none => "Loading..."
    | some task => (firstUserMessageText? task.history).getD "Loading..."

/-- The task with the smallest `status.timestamp` (first such on ties). -/
def earliestTask? (tasks : List AgentTask) : Option AgentTask :=
  tasks.foldl
    (fun acc t =>
      match acc with
      | none => some t
      | some b => if t.timestamp < b.timestamp then some t else acc)
    none

/-- The preview title as the specification words it (§4.5): the first
`user`-role text in the history of the context's *earliest* task, earliest
by `status.timestamp`, truncated to 50 characters. -/
def specContextPreview (getTask : String → Option AgentTask) (taskIds : List String) : String :=
  match earliestTask? (taskIds.filterMap getTask) with
  | none => "Loading..."
  | some task => (firstUserMessageText? task.history).getD "Loading..."

/-! ### Concrete inputs used by witnesses and counterexamples -/

/-- The two tasks of the C9 counterexample: the task listed first in the
context has the *later* timestamp. -/
def cxLaterTask : AgentTask :=
  { id := "t1", context_id := "C", state := "completed", timestamp := 200,
    history := [⟨"user", some [⟨"text", "ONE"⟩]⟩], artifacts := [], metadataError := none }

/-- The earlier-by-timestamp task, listed second in the C9 counterexample. -/
def cxEarlierTask : AgentTask :=
  { id := "t2", context_id := "C", state := "completed", timestamp := 100,
    history := [⟨"user", some [⟨"text", "TWO"⟩]⟩], artifacts := [], metadataError := none }

/-- The task store of the C9 counterexample. -/
def cxGetTask : String → Option AgentTask := fun tid =>
  if tid = "t1" then some cxLaterTask
  else if tid = "t2" then some cxEarlierTask
  else none

/-- Witness environment: send returns a `submitted` task, the first poll
already sees `completed`. -/
def wEnvC1 : SendEnv :=
  { send := SendPhase.ok
      { id := "T1", context_id := "C", state := "submitted", timestamp := 0,
        history := [], artifacts := [⟨"a", some [⟨"text", "done"⟩], none⟩],
        metadataError := none },
    polls := fun _ => PollResult.ok
      { id := "T1", context_id := "C", state := "completed", timestamp := 0,
        history := [], artifacts := [⟨"a", some [⟨"text", "done"⟩], none⟩],
        metadataError := none },
    aborted := fun _ => false }

/-- The `input-required` task used by the C3 witness. -/
def wTaskIR : AgentTask :=
  { id := "T1", context_id := "C", state := "input-required", timestamp := 0,
    history := [⟨"assistant", some [⟨"text", "need more"⟩]⟩],
    artifacts := [], metadataError := none }

/-- The task snapshots used by the C5 counterexample. -/
def wTaskOf (st : String) : AgentTask :=
  { id := "T1", context_id := "C", state := st, timestamp := 0,
    history := [], artifacts := [⟨"a", some [⟨"text", "done"⟩], none⟩],
    metadataError := none }

/-! ### Claim theorems -/

/-- C8: the context-id derivation maps a string of length exactly 24 to
that string right-padded with `'0'` to length 32, maps a string of any
other length to itself unchanged, and is idempotent. -/
theorem deriveContextId_pad24_and_idempotent :
    (∀ s : String, s.length = 24 →
        deriveContextId s = s ++ "00000000" ∧ (deriveContextId s).length = 32) ∧
    (∀ s : String, s.length ≠ 24 → deriveContextId s = s) ∧
    (∀ s : String, deriveContextId (deriveContextId s) = deriveContextId s) := by
  have hpad : ∀ s : String, s.length = 24 → deriveContextId s = s ++ "00000000" := by
    intro s h
    have h8 : String.mk (List.replicate (32 - s.length) '0') = "00000000" := by
      rw [h]; decide
    simp [deriveContextId, padEnd, h, h8]
  have hlen : ∀ s : String, s.length = 24 → (deriveContextId s).length = 32 := by
    intro s h
    rw [hpad s h, String.length_append, h]
    decide
  have hother : ∀ s : String, s.length ≠ 24 → deriveContextId s = s := by
    intro s h
    simp [deriveContextId, h]
  refine ⟨fun s h => ⟨hpad s h, hlen s h⟩, hother, fun s => ?_⟩
  by_cases h : s.length = 24
  · have : (deriveContextId s).length = 32 := hlen s h
    exact hother _ (by omega)
  · rw [hother s h]
    exact hother s h

/-- Witness for C8 at the 24-character id `"aaaaaaaaaaaaaaaaaaaaaaaa"` and
the 2-character id `"ab"`. -/
theorem deriveContextId_pad24_and_idempotent_w :
    deriveContextId "aaaaaaaaaaaaaaaaaaaaaaaa" = "aaaaaaaaaaaaaaaaaaaaaaaa00000000" ∧
    deriveContextId "ab" = "ab" ∧
    deriveContextId (deriveContextId "aaaaaaaaaaaaaaaaaaaaaaaa")
      = deriveContextId "aaaaaaaaaaaaaaaaaaaaaaaa" := by
  refine ⟨?_, ?_, ?_⟩
  · exact (deriveContextId_pad24_and_idempotent.1 _ (by decide)).1
  · exact deriveContextId_pad24_and_idempotent.2.1 "ab" (by decide)
  · exact deriveContextId_pad24_and_idempotent.2.2 _

/-- C2: on inputs without degenerate empty-string ids, the task-identity
logic of `sendAgentMessage` is exactly the four-rule resolver of the
specification: explicit reply forks a fresh task referencing the replied-to
task; an `input-required`/`auth-required` current task is continued under
its own id with no references; any other current task yields a fresh id
referencing it; no current task yields a fresh id and no references. -/
theorem resolveTaskIdentity_spec (fresh : String) (reply curr st : Option String)
    (hr : ∀ s, reply = some s → s ≠ "") (hc : ∀ s, curr = some s → s ≠ "") :
    resolveTaskIdentity fresh reply curr st = specResolveTaskIdentity fresh reply curr st := by
  cases reply with
  | some r =>
    have hr' : r ≠ "" := hr r rfl
    simp [resolveTaskIdentity, specResolveTaskIdentity, truthy, hr']
  | none =>
    cases curr with
    | none =>
      simp [resolveTaskIdentity, specResolveTaskIdentity, truthy]
    | some c =>
      have hc' : c ≠ "" := hc c rfl
      by_cases hst : st = some "input-required" ∨ st = some "auth-required"
      · rcases hst with h | h <;>
          simp [h, resolveTaskIdentity, specResolveTaskIdentity, truthy, hc']
      · push_neg at hst
        simp [resolveTaskIdentity, specResolveTaskIdentity, truthy, hc', hst.1, hst.2,
          not_or.mpr hst]

/-- Witness for C2 at `fresh = "f"`, an explicit reply `"r"`, a current
task `"c"` in state `input-required`. -/
theorem resolveTaskIdentity_spec_w :
    resolveTaskIdentity "f" (some "r") (some "c") (some "input-required")
      = specResolveTaskIdentity "f" (some "r") (some "c") (some "input-required") :=
  resolveTaskIdentity_spec "f" (some "r") (some "c") (some "input-required")
    (fun s h => by cases h; decide) (fun s h => by cases h; decide)

/-- C6 counterexample: on a `completed` payment poll carrying the
non-ASCII token `"tök"`, the token *is* stored as the process-wide payment
token (it is not validated, discarded or cleared at storage time), refuting
the claim that a non-ASCII token is discarded when stored. -/
theorem paymentToken_stored_unvalidated_cx :
    (paymentPollStep none ⟨"completed", some "tök"⟩).1 = some "tök" ∧
    asciiOnly "tök" = false ∧
    hasPaymentToken (paymentPollStep none ⟨"completed", some "tök"⟩).1 = true := by
  decide

/-- C6 amended: `handlePaymentRequired` stores a truthy token from a
`completed` poll unvalidated; ASCII validation is deferred to
`getPaymentHeaders`, which trims the held token, clears it and returns no
headers when the trimmed form is not ASCII-only, returns
`X-PAYMENT: trimmed token` when it is, and returns no headers when no
token is held. -/
theorem paymentToken_lazy_validation (tok : Option String) (d : PaymentStatus) (t : String)
    (hd : d.status = "completed") (ht : truthy d.payment_token = true) (hne : t ≠ "") :
    paymentPollStep tok d = (d.payment_token, PayStep.approved) ∧
    (asciiOnly (jsTrim t) = false → getPaymentHeaders (some t) = (none, [])) ∧
    (asciiOnly (jsTrim t) = true →
      getPaymentHeaders (some t) = (some t, [("X-PAYMENT", jsTrim t)])) ∧
    getPaymentHeaders (none : Option String) = (none, []) := by
  refine ⟨?_, ?_, ?_, rfl⟩
  · simp [paymentPollStep, hd, ht]
  · intro h
    simp [getPaymentHeaders, hne, h]
  · intro h
    simp [getPaymentHeaders, hne, h]

/-- Witness for the amended C6 at the non-ASCII token `"bäd"`. -/
theorem paymentToken_lazy_validation_w :
    paymentPollStep none ⟨"completed", some "bäd"⟩ = (some "bäd", PayStep.approved) ∧
    getPaymentHeaders (some "bäd") = (none, []) := by
  have h := paymentToken_lazy_validation none ⟨"completed", some "bäd"⟩ "bäd"
    rfl (by decide) (by decide)
  exact ⟨h.1, h.2.1 (by decide)⟩

set_option maxRecDepth 4000 in
/-- C9 counterexample: for a context listing `["t1", "t2"]` where `t2` has
the earlier `status.timestamp`, `loadContexts` computes the preview from
`t1` (the first listed id), not from the earliest task `t2`, so the
computed preview differs from the spec's earliest-task preview. -/
theorem contextPreview_not_earliest_cx :
    loadContextPreview cxGetTask ["t1", "t2"] = "ONE" ∧
    specContextPreview cxGetTask ["t1", "t2"] = "TWO" ∧
    loadContextPreview cxGetTask ["t1", "t2"] ≠ specContextPreview cxGetTask ["t1", "t2"] := by
  decide

/-- Truncation to 50 characters never yields more than 50 characters. -/
theorem take50_length_le (s : String) : (s.take 50).length ≤ 50 := by
  rw [String.take_eq]
  show (s.data.take 50).length ≤ 50
  simp

/-- Every hit of the preview scan was truncated to at most 50 characters. -/
theorem firstUserMessageText?_length_le (hist : List HistoryMsg) (t : String)
    (h : firstUserMessageText? hist = some t) : t.length ≤ 50 := by
  rw [firstUserMessageText?] at h
  obtain ⟨m, -, hm⟩ := List.exists_of_findSome?_eq_some h
  revert hm
  split
  · split
    · intro hm
      simp at hm
    · intro hm
      rw [Option.some.injEq] at hm
      subst hm
      exact take50_length_le _
  · intro hm
    simp at hm

/-- C9 amended: the preview title is computed from the *first* task id
listed in the context's `task_ids` (no sorting by `status.timestamp`): when
that task is fetched successfully, the preview is the first text part of
its first `user`-role history message truncated to 50 characters,
defaulting to `"Loading..."`; the remaining task ids are irrelevant, and
every non-default preview has at most 50 characters. -/
theorem loadContextPreview_first_listed (getTask : String → Option AgentTask)
    (tid : String) (rest rest' : List String) (task : AgentTask)
    (h : getTask tid = some task) :
    loadContextPreview getTask (tid :: rest)
      = (firstUserMessageText? task.history).getD "Loading..." ∧
    loadContextPreview getTask (tid :: rest) = loadContextPreview getTask (tid :: rest') ∧
    (∀ t, firstUserMessageText? task.history = some t → t.length ≤ 50) := by
  refine ⟨by simp [loadContextPreview, h], by simp [loadContextPreview, h], ?_⟩
  exact fun t ht => firstUserMessageText?_length_le task.history t ht

/-- Witness for the amended C9 at the counterexample's task store. -/
theorem loadContextPreview_first_listed_w :
    loadContextPreview cxGetTask ["t1", "t2"]
      = (firstUserMessageText? cxLaterTask.history).getD "Loading..." ∧
    loadContextPreview cxGetTask ["t1", "t2"] = loadContextPreview cxGetTask ["t1"] ∧
    (∀ t, firstUserMessageText? cxLaterTask.history = some t → t.length ≤ 50) :=
  loadContextPreview_first_listed cxGetTask "t1" ["t2"] [] cxLaterTask (by decide)

/-- C10: an artifact with no `parts` array but a truthy top-level `text`
field contributes its text to the newline-joined artifact result exactly
as an artifact with that text as its single `text`-kind part would, and
the text is indeed included among the joined artifact texts. -/
theorem extractTextFromTask_topLevel_text (task : AgentTask) (pre post : List Artifact)
    (k t : String) (hne : t ≠ "")
    (h : task.artifacts = pre ++ ⟨k, none, some t⟩ :: post) :
    extractTextFromTask task
      = extractTextFromTask
          { task with artifacts := pre ++ ⟨k, some [⟨"text", t⟩], none⟩ :: post } ∧
    t ∈ artifactTexts task.artifacts := by
  have hats : artifactTexts (pre ++ ⟨k, none, some t⟩ :: post)
      = artifactTexts (pre ++ ⟨k, some [⟨"text", t⟩], none⟩ :: post) := by
    simp [artifactTexts, partText?, hne]
  have hmem : t ∈ artifactTexts (pre ++ ⟨k, none, some t⟩ :: post) := by
    simp [artifactTexts, hne]
  refine ⟨?_, h ▸ hmem⟩
  simp only [extractTextFromTask, h, hats]
  simp

/-- Witness for C10: one parts-based artifact `"A"` followed by one
top-level-text artifact `"B"` extract to `"A\nB"`. -/
theorem extractTextFromTask_topLevel_text_w :
    extractTextFromTask
        { id := "t", context_id := "c", state := "completed", timestamp := 0,
          history := [],
          artifacts := [⟨"a", some [⟨"text", "A"⟩], none⟩, ⟨"file", none, some "B"⟩],
          metadataError := none }
      = extractTextFromTask
        { id := "t", context_id := "c", state := "completed", timestamp := 0,
          history := [],
          artifacts := [⟨"a", some [⟨"text", "A"⟩], none⟩, ⟨"file", some [⟨"text", "B"⟩], none⟩],
          metadataError := none } ∧
    "B" ∈ artifactTexts [⟨"a", some [⟨"text", "A"⟩], none⟩, ⟨"file", none, some "B"⟩] := by
  have h := extractTextFromTask_topLevel_text
    { id := "t", context_id := "c", state := "completed", timestamp := 0,
      history := [],
      artifacts := [⟨"a", some [⟨"text", "A"⟩], none⟩, ⟨"file", none, some "B"⟩],
      metadataError := none }
    [⟨"a", some [⟨"text", "A"⟩], none⟩] [] "file" "B" (by decide) rfl
  exact h

/-- `findSome?` only depends on the values of the scan on the list. -/
theorem findSome?_congr {α β : Type} {f g : α → Option β} {l : List α}
    (h : ∀ a ∈ l, f a = g a) : l.findSome? f = l.findSome? g := by
  induction l with
  | nil => rfl
  | cons a rest ih =>
    rw [List.findSome?_cons, List.findSome?_cons, h a (List.mem_cons_self a rest),
      ih fun b hb => h b (List.mem_cons_of_mem a hb)]

/-- On parts whose text fields are nonempty, the code's text-part filter
agrees with the spec's kind-only filter. -/
theorem filterMap_partText?_spec (ps : List MsgPart) (h : TextPartsNonempty ps) :
    ps.filterMap partText?
      = ps.filterMap fun p => if p.kind = "text" then some p.text else none := by
  induction ps with
  | nil => rfl
  | cons p rest ih =>
    have hrest : TextPartsNonempty rest := fun q hq => h q (List.mem_cons_of_mem p hq)
    by_cases hk : p.kind = "text"
    · have hne : p.text ≠ "" := h p (List.mem_cons_self p rest) hk
      simp [List.filterMap_cons, partText?, hk, hne, ih hrest]
    · simp [List.filterMap_cons, partText?, hk, ih hrest]

/-- On parts whose text fields are nonempty, the code's first-text scan
agrees with the spec's first `text`-kind part. -/
theorem findSome?_partText?_spec (ps : List MsgPart) (h : TextPartsNonempty ps) :
    ps.findSome? partText? = (ps.find? fun p => p.kind = "text").map MsgPart.text := by
  induction ps with
  | nil => rfl
  | cons p rest ih =>
    have hrest : TextPartsNonempty rest := fun q hq => h q (List.mem_cons_of_mem p hq)
    by_cases hk : p.kind = "text"
    · have hne : p.text ≠ "" := h p (List.mem_cons_self p rest) hk
      simp [List.findSome?_cons, List.find?_cons, partText?, hk, hne]
    · simp [List.findSome?_cons, List.find?_cons, partText?, hk, ih hrest]

/-- On a message whose text parts are nonempty, the code's history scan of
one message agrees with the spec's. -/
theorem msgFirstText?_spec (m : HistoryMsg)
    (h : TextPartsNonempty (m.parts.getD [])) :
    msgFirstText? m = specMsgText? m := by
  unfold msgFirstText? specMsgText?
  by_cases hr : m.role = "assistant" ∨ m.role = "agent"
  · cases hps : m.parts with
    | none => simp [hr, hps]
    | some ps =>
      rw [hps] at h
      simp [hr, hps, findSome?_partText?_spec ps h]
  · simp [hr]

/-- On artifacts that all carry a `parts` array of nonempty-text parts,
the code's artifact pass agrees with the spec's. -/
theorem artifactTexts_spec (arts : List Artifact)
    (hparts : ∀ a ∈ arts, a.parts.isSome)
    (hart : ∀ a ∈ arts, TextPartsNonempty (a.parts.getD [])) :
    artifactTexts arts = specArtifactTexts arts := by
  induction arts with
  | nil => rfl
  | cons a rest ih =>
    obtain ⟨ps, hps⟩ := Option.isSome_iff_exists.mp (hparts a (List.mem_cons_self a rest))
    have h1 : TextPartsNonempty ps := by
      have := hart a (List.mem_cons_self a rest)
      rwa [hps] at this
    have ih' := ih (fun b hb => hparts b (List.mem_cons_of_mem a hb))
      (fun b hb => hart b (List.mem_cons_of_mem a hb))
    simp [artifactTexts, specArtifactTexts, List.flatMap_cons, List.filterMap_append, hps,
      filterMap_partText?_spec ps h1] at ih' ⊢
    exact ih'

/-- C7: on task snapshots that fit the spec's data model (every artifact is
a sequence of parts; text parts carry nonempty text), the Text Extractor
returns the newline-join of every `text`-kind part across all artifacts in
order when at least one exists, otherwise the first text part of the most
recent `assistant`/`agent`-role history message that has one, otherwise
the empty string — i.e. it coincides with the spec's extractor. -/
theorem extractTextFromTask_spec (task : AgentTask)
    (hparts : ∀ a ∈ task.artifacts, a.parts.isSome)
    (hart : ∀ a ∈ task.artifacts, TextPartsNonempty (a.parts.getD []))
    (hhist : ∀ m ∈ task.history, TextPartsNonempty (m.parts.getD [])) :
    extractTextFromTask task = specExtractText task := by
  have hats : artifactTexts task.artifacts = specArtifactTexts task.artifacts :=
    artifactTexts_spec task.artifacts hparts hart
  have hfb : extractFromHistory task.history
      = match task.history.reverse.findSome? specMsgText? with
        | some t => t
        | none => "" := by
    rw [extractFromHistory,
      findSome?_congr fun m hm => msgFirstText?_spec m (hhist m (List.mem_reverse.mp hm))]
  by_cases hne : specArtifactTexts task.artifacts = []
  · have hcode : artifactTexts task.artifacts = [] := by rw [hats]; exact hne
    rw [specExtractText]
    simp only [hne, ne_eq, not_true_eq_false, if_false]
    rw [extractTextFromTask]
    by_cases hlen : task.artifacts.length > 0
    · rw [if_pos hlen]
      simp only [hcode, List.length_nil, gt_iff_lt, Nat.lt_irrefl, if_false]
      exact hfb
    · rw [if_neg hlen]
      exact hfb
  · have hlen : task.artifacts.length > 0 := by
      cases harts : task.artifacts with
      | nil => rw [harts] at hne; simp [specArtifactTexts] at hne
      | cons a rest => simp [harts]
    have hlen2 : (artifactTexts task.artifacts).length > 0 := by
      rw [hats]
      exact List.length_pos.mpr hne
    rw [extractTextFromTask, specExtractText, if_pos hlen]
    simp only [hats] at hlen2 ⊢
    rw [if_pos hlen2, if_pos hne]

/-- Witness for C7 at a task with two artifacts carrying text parts `"A"`
and `"B"`: both extractors give `"A\nB"`. -/
theorem extractTextFromTask_spec_w :
    extractTextFromTask
        { id := "t", context_id := "c", state := "completed", timestamp := 0,
          history := [⟨"user", some [⟨"text", "hi"⟩]⟩],
          artifacts := [⟨"a", some [⟨"text", "A"⟩], none⟩, ⟨"a", some [⟨"text", "B"⟩], none⟩],
          metadataError := none }
      = specExtractText
        { id := "t", context_id := "c", state := "completed", timestamp := 0,
          history := [⟨"user", some [⟨"text", "hi"⟩]⟩],
          artifacts := [⟨"a", some [⟨"text", "A"⟩], none⟩, ⟨"a", some [⟨"text", "B"⟩], none⟩],
          metadataError := none } ∧
    specExtractText
        { id := "t", context_id := "c", state := "completed", timestamp := 0,
          history := [⟨"user", some [⟨"text", "hi"⟩]⟩],
          artifacts := [⟨"a", some [⟨"text", "A"⟩], none⟩, ⟨"a", some [⟨"text", "B"⟩], none⟩],
          metadataError := none } = "A\nB" := by
  refine ⟨extractTextFromTask_spec _ (by decide) (by decide) (by decide), by decide⟩

/-- A poll loop that ends in a normal generator return yields some task
metadata followed by exactly `FinalAnswer` then `Status{finished}`. -/
theorem pollLoop_finished_shape (P : Nat → PollResult) (A : Nat → Bool)
    (tid ctx : String) (refs : Option (List String)) :
    ∀ fuel attempt tok us tok',
      pollLoop P A tid ctx refs fuel attempt tok = (us, tok', PollEnd.finished) →
      ∃ mds txt, us = mds ++ [MessageUpdate.finalAnswer txt false,
          MessageUpdate.status UpdStatus.finished none] ∧
        ∀ u ∈ mds, ∃ st, u = MessageUpdate.taskMetadata tid ctx st refs := by
  intro fuel
  induction fuel with
  | zero =>
    intro attempt tok us tok' h
    simp [pollLoop] at h
  | succ fuel ih =>
    intro attempt tok us tok' h
    rw [pollLoop] at h
    by_cases hab : A attempt = true
    · rw [if_pos hab] at h
      simp at h
    · rw [if_neg hab] at h
      cases hp : P attempt with
      | fetchReject m =>
        rw [hp] at h; simp at h
      | httpNotOk =>
        rw [hp] at h
        exact ih _ _ _ _ h
      | jsonReject m =>
        rw [hp] at h; simp at h
      | rpcError m =>
        rw [hp] at h; simp at h
      | ok t =>
        rw [hp] at h
        dsimp only at h
        by_cases hterm : t.state = "completed" ∨ t.state = "input-required"
        · rw [if_pos hterm] at h
          simp only [Prod.mk.injEq] at h
          obtain ⟨h1, -, -⟩ := h
          subst h1
          exact ⟨[MessageUpdate.taskMetadata tid ctx t.state refs], extractTextFromTask t,
            rfl, by simp⟩
        · rw [if_neg hterm] at h
          by_cases hf : t.state = "failed"
          · rw [if_pos hf] at h; simp at h
          · rw [if_neg hf] at h
            by_cases hcan : t.state = "canceled"
            · rw [if_pos hcan] at h; simp at h
            · rw [if_neg hcan] at h
              cases hrec : pollLoop P A tid ctx refs fuel (attempt + 1) tok with
              | mk us' r2 =>
                cases r2 with
                | mk tok'' e =>
                  rw [hrec] at h
                  simp only [Prod.mk.injEq] at h
                  obtain ⟨h1, h2, h3⟩ := h
                  subst h1 h2 h3
                  obtain ⟨mds, txt, hshape, hmds⟩ := ih _ _ _ _ hrec
                  refine ⟨MessageUpdate.taskMetadata tid ctx t.state refs :: mds, txt, ?_, ?_⟩
                  · rw [hshape]; rfl
                  · intro u hu
                    rcases List.mem_cons.mp hu with rfl | hu
                    · exact ⟨t.state, rfl⟩
                    · exact hmds u hu

/-- C1: every successful `sendAgentMessage` invocation yields
`Status{started}` first, contains exactly one `FinalAnswer`, and that
`FinalAnswer` is immediately followed by the terminal `Status{finished}`
after which no further update is yielded. -/
theorem sendAgentMessage_success_shape (env : SendEnv) (fresh : String)
    (contextId : Option String) (freshCtx : String)
    (currentTaskId taskState replyToTaskId tok0 : Option String)
    (us : List MessageUpdate)
    (h : sendAgentMessage env fresh contextId freshCtx currentTaskId taskState replyToTaskId tok0
          = (us, RunOutcome.completed)) :
    us.head? = some (MessageUpdate.status UpdStatus.started none) ∧
    us.countP (fun u => isFinalAnswer u) = 1 ∧
    ∃ pre txt, us = pre ++ [MessageUpdate.finalAnswer txt false,
        MessageUpdate.status UpdStatus.finished none] ∧
      ∀ u ∈ pre, isFinalAnswer u = false := by
  rw [sendAgentMessage] at h
  cases hs : sendPhaseRun env.send with
  | error m =>
    rw [hs] at h
    simp at h
  | ok task =>
    rw [hs] at h
    dsimp only at h
    cases hrec : pollLoop env.polls env.aborted task.id
        (newContextId contextId freshCtx)
        (if (resolveTaskIdentity fresh replyToTaskId currentTaskId taskState).2.isEmpty then none
         else some (resolveTaskIdentity fresh replyToTaskId currentTaskId taskState).2)
        300 0 tok0 with
    | mk us' r2 =>
      cases r2 with
      | mk tok' e =>
        rw [hrec] at h
        cases e with
        | thrown m => simp at h
        | finished =>
          simp only [Prod.mk.injEq] at h
          obtain ⟨h1, -⟩ := h
          obtain ⟨mds, txt, hshape, hmds⟩ :=
            pollLoop_finished_shape _ _ _ _ _ _ _ _ _ _ hrec
          subst h1
          have hnofa : ∀ u ∈ (MessageUpdate.status UpdStatus.started none ::
              MessageUpdate.taskMetadata task.id (newContextId contextId freshCtx)
                task.state
                (if (resolveTaskIdentity fresh replyToTaskId currentTaskId taskState).2.isEmpty
                 then none
                 else some (resolveTaskIdentity fresh replyToTaskId currentTaskId taskState).2) ::
              mds), isFinalAnswer u = false := by
            intro u hu
            rcases List.mem_cons.mp hu with rfl | hu
            · rfl
            · rcases List.mem_cons.mp hu with rfl | hu
              · rfl
              · obtain ⟨st, rfl⟩ := hmds u hu
                rfl
          refine ⟨rfl, ?_, ?_⟩
          · rw [hshape]
            rw [show (MessageUpdate.status UpdStatus.started none ::
                MessageUpdate.taskMetadata task.id (newContextId contextId freshCtx)
                  task.state
                  (if (resolveTaskIdentity fresh replyToTaskId currentTaskId taskState).2.isEmpty
                   then none
                   else some (resolveTaskIdentity fresh replyToTaskId currentTaskId taskState).2) ::
                (mds ++ [MessageUpdate.finalAnswer txt false,
                  MessageUpdate.status UpdStatus.finished none]))
              = (MessageUpdate.status UpdStatus.started none ::
                MessageUpdate.taskMetadata task.id (newContextId contextId freshCtx)
                  task.state
                  (if (resolveTaskIdentity fresh replyToTaskId currentTaskId taskState).2.isEmpty
                   then none
                   else some (resolveTaskIdentity fresh replyToTaskId currentTaskId taskState).2) ::
                mds) ++ [MessageUpdate.finalAnswer txt false,
                  MessageUpdate.status UpdStatus.finished none] from by simp]
            rw [List.countP_append, List.countP_eq_zero.mpr (by simpa using hnofa)]
            rfl
          · refine ⟨MessageUpdate.status UpdStatus.started none ::
              MessageUpdate.taskMetadata task.id (newContextId contextId freshCtx)
                task.state
                (if (resolveTaskIdentity fresh replyToTaskId currentTaskId taskState).2.isEmpty
                 then none
                 else some (resolveTaskIdentity fresh replyToTaskId currentTaskId taskState).2) ::
              mds, txt, ?_, hnofa⟩
            rw [hshape]
            simp

/-- Witness for C1 on a concrete successful run. -/
theorem sendAgentMessage_success_shape_w :
    ((sendAgentMessage wEnvC1 "f" none "fc" none none none none).1.head?
        = some (MessageUpdate.status UpdStatus.started none) ∧
      (sendAgentMessage wEnvC1 "f" none "fc" none none none none).1.countP
        (fun u => isFinalAnswer u) = 1 ∧
      ∃ pre txt,
        (sendAgentMessage wEnvC1 "f" none "fc" none none none none).1
          = pre ++ [MessageUpdate.finalAnswer txt false,
              MessageUpdate.status UpdStatus.finished none] ∧
        ∀ u ∈ pre, isFinalAnswer u = false) :=
  sendAgentMessage_success_shape wEnvC1 "f" none "fc" none none none none
    [MessageUpdate.status UpdStatus.started none,
     MessageUpdate.taskMetadata "T1" "fc" "submitted" none,
     MessageUpdate.taskMetadata "T1" "fc" "completed" none,
     MessageUpdate.finalAnswer "done" false,
     MessageUpdate.status UpdStatus.finished none] (by decide)

/-- C4: every failing `sendAgentMessage` invocation yields, as its very
last update before the error propagates, `Status{error}` carrying the
raised error message. -/
theorem sendAgentMessage_error_last (env : SendEnv) (fresh : String)
    (contextId : Option String) (freshCtx : String)
    (currentTaskId taskState replyToTaskId tok0 : Option String)
    (us : List MessageUpdate) (m : String)
    (h : sendAgentMessage env fresh contextId freshCtx currentTaskId taskState replyToTaskId tok0
          = (us, RunOutcome.raised m)) :
    us.getLast? = some (MessageUpdate.status UpdStatus.error (some m)) := by
  rw [sendAgentMessage] at h
  cases hs : sendPhaseRun env.send with
  | error e =>
    rw [hs] at h
    simp only [Prod.mk.injEq, RunOutcome.raised.injEq] at h
    obtain ⟨h1, h2⟩ := h
    subst h1 h2
    rfl
  | ok task =>
    rw [hs] at h
    dsimp only at h
    cases hrec : pollLoop env.polls env.aborted task.id
        (newContextId contextId freshCtx)
        (if (resolveTaskIdentity fresh replyToTaskId currentTaskId taskState).2.isEmpty then none
         else some (resolveTaskIdentity fresh replyToTaskId currentTaskId taskState).2)
        300 0 tok0 with
    | mk us' r2 =>
      cases r2 with
      | mk tok' e =>
        rw [hrec] at h
        cases e with
        | finished => simp at h
        | thrown e' =>
          simp only [Prod.mk.injEq, RunOutcome.raised.injEq] at h
          obtain ⟨h1, h2⟩ := h
          subst h1
          rw [← h2]
          rw [show (MessageUpdate.status UpdStatus.started none ::
              MessageUpdate.taskMetadata task.id (newContextId contextId freshCtx)
                task.state
                (if (resolveTaskIdentity fresh replyToTaskId currentTaskId taskState).2.isEmpty
                 then none
                 else some (resolveTaskIdentity fresh replyToTaskId currentTaskId taskState).2) ::
              (us' ++ [MessageUpdate.status UpdStatus.error (some e')]))
            = (MessageUpdate.status UpdStatus.started none ::
              MessageUpdate.taskMetadata task.id (newContextId contextId freshCtx)
                task.state
                (if (resolveTaskIdentity fresh replyToTaskId currentTaskId taskState).2.isEmpty
                 then none
                 else some (resolveTaskIdentity fresh replyToTaskId currentTaskId taskState).2) ::
              us') ++ [MessageUpdate.status UpdStatus.error (some e')] from by simp]
          exact List.getLast?_concat _

/-- Witness for C4 on a run whose send phase fails with an unresolved
payment challenge. -/
theorem sendAgentMessage_error_last_w :
    ([MessageUpdate.status UpdStatus.started none,
      MessageUpdate.status UpdStatus.error (some "Payment required but not completed")].getLast?
      = some (MessageUpdate.status UpdStatus.error
          (some "Payment required but not completed"))) :=
  sendAgentMessage_error_last
    { send := SendPhase.paymentUnresolved, polls := fun _ => PollResult.httpNotOk,
      aborted := fun _ => false }
    "f" none "fc" none none none none
    [MessageUpdate.status UpdStatus.started none,
     MessageUpdate.status UpdStatus.error (some "Payment required but not completed")]
    "Payment required but not completed" (by decide)

/-- C3: in the poll loop, the payment token is cleared exactly by a polled
terminal snapshot: an `input-required` snapshot ends the loop with
`FinalAnswer` and `Status{finished}` emitted and the token untouched; a
`completed` snapshot ends it the same way but clears the token; `failed`
and `canceled` snapshots clear the token and throw; and on every run the
token is either unchanged or cleared, a change only ever being caused by a
polled `completed`/`failed`/`canceled` snapshot. -/
theorem pollLoop_paymentToken (P : Nat → PollResult) (A : Nat → Bool)
    (tid ctx : String) (refs : Option (List String)) :
    (∀ fuel attempt tok (t : AgentTask), A attempt = false → P attempt = PollResult.ok t →
        t.state = "input-required" →
        pollLoop P A tid ctx refs (fuel + 1) attempt tok
          = ([MessageUpdate.taskMetadata tid ctx t.state refs,
              MessageUpdate.finalAnswer (extractTextFromTask t) false,
              MessageUpdate.status UpdStatus.finished none], tok, PollEnd.finished)) ∧
    (∀ fuel attempt tok (t : AgentTask), A attempt = false → P attempt = PollResult.ok t →
        t.state = "completed" →
        pollLoop P A tid ctx refs (fuel + 1) attempt tok
          = ([MessageUpdate.taskMetadata tid ctx t.state refs,
              MessageUpdate.finalAnswer (extractTextFromTask t) false,
              MessageUpdate.status UpdStatus.finished none], none, PollEnd.finished)) ∧
    (∀ fuel attempt tok (t : AgentTask), A attempt = false → P attempt = PollResult.ok t →
        t.state = "failed" →
        pollLoop P A tid ctx refs (fuel + 1) attempt tok
          = ([MessageUpdate.taskMetadata tid ctx t.state refs], none,
             PollEnd.thrown ("Task failed: " ++ orDefault t.metadataError "Unknown error"))) ∧
    (∀ fuel attempt tok (t : AgentTask), A attempt = false → P attempt = PollResult.ok t →
        t.state = "canceled" →
        pollLoop P A tid ctx refs (fuel + 1) attempt tok
          = ([MessageUpdate.taskMetadata tid ctx t.state refs], none,
             PollEnd.thrown "Task was canceled")) ∧
    (∀ fuel attempt tok us tok' e,
        pollLoop P A tid ctx refs fuel attempt tok = (us, tok', e) →
        (tok' = tok ∨ tok' = none) ∧
        (tok' ≠ tok → ∃ i t, P i = PollResult.ok t ∧
            (t.state = "completed" ∨ t.state = "failed" ∨ t.state = "canceled"))) := by
  refine ⟨?_, ?_, ?_, ?_, ?_⟩
  · intro fuel attempt tok t hA hP hst
    rw [pollLoop, if_neg (by simp [hA]), hP]
    dsimp only
    rw [if_pos (by rw [hst]; exact Or.inr rfl), hst, if_neg (by decide)]
  · intro fuel attempt tok t hA hP hst
    rw [pollLoop, if_neg (by simp [hA]), hP]
    dsimp only
    rw [if_pos (by rw [hst]; exact Or.inl rfl), hst, if_pos rfl]
  · intro fuel attempt tok t hA hP hst
    rw [pollLoop, if_neg (by simp [hA]), hP]
    dsimp only
    rw [if_neg (by rw [hst]; decide), if_pos (by rw [hst])]
  · intro fuel attempt tok t hA hP hst
    rw [pollLoop, if_neg (by simp [hA]), hP]
    dsimp only
    rw [if_neg (by rw [hst]; decide), if_neg (by rw [hst]; decide), if_pos (by rw [hst])]
  · intro fuel
    induction fuel with
    | zero =>
      intro attempt tok us tok' e h
      simp only [pollLoop, Prod.mk.injEq] at h
      obtain ⟨-, h2, -⟩ := h
      exact ⟨Or.inl h2.symm, fun hne => absurd h2.symm hne⟩
    | succ fuel ih =>
      intro attempt tok us tok' e h
      rw [pollLoop] at h
      by_cases hab : A attempt = true
      · rw [if_pos hab] at h
        simp only [Prod.mk.injEq] at h
        obtain ⟨-, h2, -⟩ := h
        exact ⟨Or.inl h2.symm, fun hne => absurd h2.symm hne⟩
      · rw [if_neg hab] at h
        cases hp : P attempt with
        | fetchReject m =>
          rw [hp] at h
          dsimp only at h
          simp only [Prod.mk.injEq] at h
          obtain ⟨-, h2, -⟩ := h
          exact ⟨Or.inl h2.symm, fun hne => absurd h2.symm hne⟩
        | httpNotOk =>
          rw [hp] at h
          dsimp only at h
          exact ih (attempt + 1) tok us tok' e h
        | jsonReject m =>
          rw [hp] at h
          dsimp only at h
          simp only [Prod.mk.injEq] at h
          obtain ⟨-, h2, -⟩ := h
          exact ⟨Or.inl h2.symm, fun hne => absurd h2.symm hne⟩
        | rpcError m =>
          rw [hp] at h
          dsimp only at h
          simp only [Prod.mk.injEq] at h
          obtain ⟨-, h2, -⟩ := h
          exact ⟨Or.inl h2.symm, fun hne => absurd h2.symm hne⟩
        | ok t =>
          rw [hp] at h
          dsimp only at h
          by_cases hterm : t.state = "completed" ∨ t.state = "input-required"
          · rw [if_pos hterm] at h
            simp only [Prod.mk.injEq] at h
            obtain ⟨-, h2, -⟩ := h
            by_cases hc : t.state = "completed"
            · rw [if_pos hc] at h2
              exact ⟨Or.inr h2.symm, fun _ => ⟨attempt, t, hp, Or.inl hc⟩⟩
            · rw [if_neg hc] at h2
              exact ⟨Or.inl h2.symm, fun hne => absurd h2.symm hne⟩
          · rw [if_neg hterm] at h
            by_cases hf : t.state = "failed"
            · rw [if_pos hf] at h
              simp only [Prod.mk.injEq] at h
              obtain ⟨-, h2, -⟩ := h
              exact ⟨Or.inr h2.symm, fun _ => ⟨attempt, t, hp, Or.inr (Or.inl hf)⟩⟩
            · rw [if_neg hf] at h
              by_cases hcan : t.state = "canceled"
              · rw [if_pos hcan] at h
                simp only [Prod.mk.injEq] at h
                obtain ⟨-, h2, -⟩ := h
                exact ⟨Or.inr h2.symm, fun _ => ⟨attempt, t, hp, Or.inr (Or.inr hcan)⟩⟩
              · rw [if_neg hcan] at h
                cases hrec : pollLoop P A tid ctx refs fuel (attempt + 1) tok with
                | mk us2 r2 =>
                  cases r2 with
                  | mk tok2 e2 =>
                    rw [hrec] at h
                    simp only [Prod.mk.injEq] at h
                    obtain ⟨-, h2, -⟩ := h
                    rw [← h2]
                    exact ih (attempt + 1) tok us2 tok2 e2 hrec

/-- Witness for C3: one `input-required` poll ends the loop with
`FinalAnswer` and `Status{finished}` and leaves the token `"tok"` held. -/
theorem pollLoop_paymentToken_w :
    pollLoop (fun _ => PollResult.ok wTaskIR) (fun _ => false) "T" "C" none 1 0 (some "tok")
      = ([MessageUpdate.taskMetadata "T" "C" wTaskIR.state none,
          MessageUpdate.finalAnswer (extractTextFromTask wTaskIR) false,
          MessageUpdate.status UpdStatus.finished none], some "tok", PollEnd.finished) ∧
    wTaskIR.state = "input-required" :=
  ⟨(pollLoop_paymentToken (fun _ => PollResult.ok wTaskIR) (fun _ => false) "T" "C" none).1
      0 0 (some "tok") wTaskIR rfl rfl rfl, rfl⟩

/-- C5 counterexample: a transport-level fetch rejection on poll attempt 0
aborts the whole operation with an error, even though every later poll
would have returned a `completed` snapshot — the loop does not continue;
by contrast the same run with an HTTP-error (non-ok) poll response at
attempt 0 is swallowed and completes. -/
theorem pollFetchReject_fatal_cx :
    (sendAgentMessage
        { send := SendPhase.ok (wTaskOf "submitted"),
          polls := fun i => if i = 0 then PollResult.fetchReject "network down"
                            else PollResult.ok (wTaskOf "completed"),
          aborted := fun _ => false } "f" none "fc" none none none none).2
      = RunOutcome.raised "network down" ∧
    (sendAgentMessage
        { send := SendPhase.ok (wTaskOf "submitted"),
          polls := fun i => if i = 0 then PollResult.httpNotOk
                            else PollResult.ok (wTaskOf "completed"),
          aborted := fun _ => false } "f" none "fc" none none none none).2
      = RunOutcome.completed := by
  decide

/-- C5 amended: during polling, only a Task-snapshot fetch that completes
with a non-ok HTTP status is swallowed (the loop continues with the next
attempt, emitting nothing); a transport-level fetch rejection throws out of
the loop with its message, just as a rejection of the initial send does. -/
theorem pollLoop_fetch_failure_semantics (P : Nat → PollResult) (A : Nat → Bool)
    (tid ctx : String) (refs : Option (List String)) :
    (∀ fuel attempt tok, A attempt = false → P attempt = PollResult.httpNotOk →
        pollLoop P A tid ctx refs (fuel + 1) attempt tok
          = pollLoop P A tid ctx refs fuel (attempt + 1) tok) ∧
    (∀ fuel attempt tok m, A attempt = false → P attempt = PollResult.fetchReject m →
        pollLoop P A tid ctx refs (fuel + 1) attempt tok = ([], tok, PollEnd.thrown m)) ∧
    (∀ m, sendPhaseRun (SendPhase.reject m) = Except.error m) := by
  refine ⟨?_, ?_, fun m => rfl⟩
  · intro fuel attempt tok hA hP
    rw [pollLoop, if_neg (by simp [hA]), hP]
  · intro fuel attempt tok m hA hP
    rw [pollLoop, if_neg (by simp [hA]), hP]

/-- Witness for the amended C5 at attempt 0. -/
theorem pollLoop_fetch_failure_semantics_w :
    pollLoop (fun _ => PollResult.httpNotOk) (fun _ => false) "T" "C" none 1 0 none
      = pollLoop (fun _ => PollResult.httpNotOk) (fun _ => false) "T" "C" none 0 1 none ∧
    pollLoop (fun _ => PollResult.fetchReject "down") (fun _ => false) "T" "C" none 1 0 none
      = ([], none, PollEnd.thrown "down") :=
  ⟨(pollLoop_fetch_failure_semantics (fun _ => PollResult.httpNotOk) (fun _ => false)
      "T" "C" none).1 0 0 none rfl rfl,
   (pollLoop_fetch_failure_semantics (fun _ => PollResult.fetchReject "down") (fun _ => false)
      "T" "C" none).2.1 0 0 none "down" rfl rfl⟩

end Bindu
